import Mathlib

/-!
Verification development for the rkvm input subsystem (device Monitor and
virtual device Writer), shallowly embedded from `src/rkvm-input/src/writer.rs`
and `src/rkvm-input/src/monitor.rs`.

External collaborators (the event vocabulary's `to_raw` maps, the kernel
`libevdev` calls, the device-open factory, the inotify stream and the tokio
channel) are modelled abstractly: vocabulary items carry their optional raw
kernel code, kernel calls are oracles returning a status, and the async loops
become functions over explicit lists of per-iteration outcomes.
-/

namespace Rkvm

/-! ### Kernel event-class constants (from the `glue` bindings of
`linux/input-event-codes.h`) -/

def EV_SYN : Nat := 0

def EV_KEY : Nat := 1

def EV_REL : Nat := 2

def EV_ABS : Nat := 3

/-- `ABS_MT_TOOL_TYPE` = 0x37: the fixed reserved code for the
multi-touch tool-type pseudo-axis. -/
def ABS_MT_TOOL_TYPE : Nat := 55

/-- `SYN_MT_REPORT` = 2: the multi-touch-report sync capability code. -/
def SYN_MT_REPORT : Nat := 2

/-! ### Event vocabulary

The vocabulary types live outside this repository (`crate::rel`, `crate::abs`,
`crate::key`, `crate::event`); the code here only consumes their `to_raw`
maps, which return an optional kernel code.  Each identifier is therefore
modelled as a carrier of its own optional raw code. -/

structure RelAxis where
  toRaw : Option Nat
  deriving DecidableEq

structure AbsAxis where
  toRaw : Option Nat
  deriving DecidableEq

structure Key where
  toRaw : Option Nat
  deriving DecidableEq

/-- The multi-touch tool type carried by `AbsEvent::MtToolType`; its
`to_raw` yields an optional raw value. -/
structure ToolType where
  toRaw : Option Int
  deriving DecidableEq

structure SyncEvent where
  toRaw : Option Nat
  deriving DecidableEq

/-- `crate::abs::AbsEvent`. -/
inductive AbsEvent where
  | axis (axis : AbsAxis) (value : Int)
  | mtToolType (value : ToolType)
  deriving DecidableEq

/-- `crate::event::Event`, the normalized event type consumed by
`Writer::write`. -/
inductive Event where
  | rel (axis : RelAxis) (value : Int)
  | abs (event : AbsEvent)
  | key (down : Bool) (key : Key)
  | sync (event : SyncEvent)
  deriving DecidableEq

/-! ### `Writer::write` (writer.rs lines 25-45) -/

/-- The `match event` arms of `Writer::write`: one normalized event becomes a
kernel class together with an optional code and an optional value. -/
def encode : Event → Nat × Option Nat × Option Int
  | .rel axis value => (EV_REL, axis.toRaw, some value)
  | .abs (.axis axis value) => (EV_ABS, axis.toRaw, some value)
  | .abs (.mtToolType value) => (EV_ABS, some ABS_MT_TOOL_TYPE, value.toRaw)
  | .key down key => (EV_KEY, key.toRaw, some (if down then 1 else 0))
  | .sync event => (EV_SYN, event.toRaw, some 0)

/-- `Writer::write`, parameterized by the underlying raw write (`write_raw`)
as an oracle.  Returns the call's result together with the list of raw
triples actually passed to the underlying write. -/
def Writer.write (raw : Nat → Nat → Int → Except Int Unit) (event : Event) :
    Except Int Unit × List (Nat × Nat × Int) :=
  let t := (encode event).1
  let code := (encode event).2.1
  let value := (encode event).2.2
  match code, value with
  | some code, some value => (raw t code value, [(t, code, value)])
  | _, _ => (Except.ok (), [])

/-! ### `Writer::write_raw` retry loop (writer.rs lines 66-95)

Each loop iteration awaits writability and then attempts the write via
`try_io`.  Per iteration the possible outcomes are: `writable()` itself fails
(surfaced by `?`); `try_io` returns `Ok(inner)` where `inner` is the
libevdev write's result (returned); or `try_io` reports would-block
(`continue`).  The loop is embedded as a function over the list of
per-iteration outcomes; `none` means the outcome list was exhausted with the
loop still running. -/

deriving instance DecidableEq for Except

inductive Attempt where
  | wouldBlock
  | ioResult (r : Except Int Unit)
  | writableErr (e : Int)
  deriving DecidableEq

/-- 1 when an underlying write attempt succeeded, else 0. -/
def countSuccess : Except Int Unit → Nat
  | .ok _ => 1
  | .error _ => 0

/-- The retry loop: result (if the loop returned within the given outcomes)
paired with the number of successful underlying writes performed. -/
def write_raw : List Attempt → Option (Except Int Unit) × Nat
  | [] => (none, 0)
  | .writableErr e :: _ => (some (.error e), 0)
  | .ioResult r :: _ => (some r, countSuccess r)
  | .wouldBlock :: rest => write_raw rest

/-! ### `WriterBuilder::abs` (writer.rs lines 169-213)

`abs` first enables the `EV_SYN`/`SYN_MT_REPORT` capability on the evdev
descriptor, then for each item whose axis maps to a raw code builds an
`input_absinfo` and enables the `EV_ABS` code with it.  The kernel
`libevdev_enable_event_code` call is an oracle returning its status code;
a negative status becomes `Error::from_raw_os_error(-ret)`.  The trace of
enable calls actually issued is returned alongside the result. -/

/-- `crate::abs::AbsInfo`, the supplied per-axis range data. -/
structure AbsInfo where
  min : Int
  max : Int
  fuzz : Int
  flat : Int
  resolution : Int
  deriving DecidableEq

/-- `glue::input_absinfo`, the kernel axis descriptor. -/
structure input_absinfo where
  value : Int
  minimum : Int
  maximum : Int
  fuzz : Int
  flat : Int
  resolution : Int
  deriving DecidableEq

/-- The `input_absinfo` literal built in `abs` (writer.rs lines 189-196). -/
def mkAbsinfo (info : AbsInfo) : input_absinfo :=
  ⟨info.min, info.min, info.max, info.fuzz, info.flat, info.resolution⟩

/-- One `libevdev_enable_event_code` call issued by `abs`: either the
`EV_SYN`/`SYN_MT_REPORT` registration or an `EV_ABS` code with its
descriptor. -/
inductive EnableCall where
  | mtReportSync
  | absAxis (code : Nat) (info : input_absinfo)
  deriving DecidableEq

/-- Recognizes the multi-touch-report sync registration among enable calls. -/
def isMtReportSync : EnableCall → Bool
  | .mtReportSync => true
  | _ => false

/-- The `for (axis, info) in items` loop of `abs`: axes without a raw code
are skipped, a negative kernel status aborts with that error. -/
def absEnable (kernelRet : EnableCall → Int) :
    List (AbsAxis × AbsInfo) → Except Int Unit × List EnableCall
  | [] => (.ok (), [])
  | (axis, info) :: rest =>
    match axis.toRaw with
    | none => absEnable kernelRet rest
    | some code =>
      let call := EnableCall.absAxis code (mkAbsinfo info)
      if kernelRet call < 0 then (.error (-(kernelRet call)), [call])
      else
        let r := absEnable kernelRet rest
        (r.1, call :: r.2)

/-- `WriterBuilder::abs`: enable `SYN_MT_REPORT` once, then run the axis
loop.  Returns the result and the full trace of enable calls. -/
def WriterBuilder.abs (kernelRet : EnableCall → Int)
    (items : List (AbsAxis × AbsInfo)) : Except Int Unit × List EnableCall :=
  if kernelRet .mtReportSync < 0 then
    (.error (-(kernelRet .mtReportSync)), [.mtReportSync])
  else
    let r := absEnable kernelRet items
    (r.1, .mtReportSync :: r.2)

/-! ### The device Monitor (monitor.rs)

The Monitor's background task is a loop that first drains the initial
directory listing (`read_dir.next_entry()`), then draws from the inotify
creation stream; candidates whose file name does not start with `"event"`
are skipped, the rest are passed to `Interceptor::open`.  The loop is
embedded as a function over the explicit lists of per-iteration outcomes:
`dir` holds the `next_entry` results until exhaustion (an `Error` aborts the
task), `stream` holds the inotify events (`Error`, an event without a file
name, or a created file name; list end = stream end). -/

/-- A candidate path, reduced to what the Monitor inspects: its final
path component, when it has one representable as a string. -/
structure DevPath where
  fileName : Option String
  deriving DecidableEq

/-- The filter of monitor.rs lines 49-55: the final path component exists
and starts with `"event"` (`starts_with` on a UTF-8 string is prefix of its
character sequence). -/
def startsWithEventName (p : DevPath) : Bool :=
  match p.fileName with
  | some name => "event".data.isPrefixOf name.data
  | none => false

/-- Outcome of `Interceptor::open` on a candidate (the factory itself lives
outside this repository): adopted handle, not applicable, or an I/O error. -/
inductive OpenOutcome where
  | adopted (handle : Nat)
  | notAppliable
  | ioFail (e : Int)
  deriving DecidableEq

/-- Result of running the Monitor loop: handles published on the channel,
candidates passed to `Interceptor::open` (in order), and the loop's final
result. -/
structure RunOut where
  pubs : List Nat
  atts : List DevPath
  res : Except Int Unit
  deriving DecidableEq

/-- The Watching phase: one iteration per inotify stream item
(monitor.rs lines 35-46 drive lines 49-65). -/
def runStream (openO : DevPath → OpenOutcome) :
    List (Except Int (Option String)) → RunOut
  | [] => ⟨[], [], .ok ()⟩
  | .error e :: _ => ⟨[], [], .error e⟩
  | .ok none :: rest => runStream openO rest
  | .ok (some name) :: rest =>
    let path : DevPath := ⟨some name⟩
    if startsWithEventName path then
      match openO path with
      | .adopted h =>
        let r := runStream openO rest
        ⟨h :: r.pubs, path :: r.atts, r.res⟩
      | .notAppliable =>
        let r := runStream openO rest
        ⟨r.pubs, path :: r.atts, r.res⟩
      | .ioFail e => ⟨[], [path], .error e⟩
    else runStream openO rest

/-- The Scanning phase followed by Watching: one iteration per directory
entry (monitor.rs lines 33-34), handing over to the stream when the listing
is exhausted. -/
def runDir (openO : DevPath → OpenOutcome) :
    List (Except Int DevPath) → List (Except Int (Option String)) → RunOut
  | [], stream => runStream openO stream
  | .error e :: _, _ => ⟨[], [], .error e⟩
  | .ok p :: rest, stream =>
    if startsWithEventName p then
      match openO p with
      | .adopted h =>
        let r := runDir openO rest stream
        ⟨h :: r.pubs, p :: r.atts, r.res⟩
      | .notAppliable =>
        let r := runDir openO rest stream
        ⟨r.pubs, p :: r.atts, r.res⟩
      | .ioFail e => ⟨[], [p], .error e⟩
    else runDir openO rest stream

/-- The channel items published by the whole task (monitor.rs lines 71-79):
the adopted handles as `Ok`, then, when the run ended in an error, that
error exactly once. -/
def publishOf (r : RunOut) : List (Except Int Nat) :=
  match r.res with
  | .ok _ => r.pubs.map .ok
  | .error e => r.pubs.map .ok ++ [.error e]

/-- The published channel items and open attempts of a full Monitor task,
for a consumer that stays alive and drains every item. -/
def monitorTask (openO : DevPath → OpenOutcome)
    (dir : List (Except Int DevPath))
    (stream : List (Except Int (Option String))) :
    List (Except Int Nat) × List DevPath :=
  (publishOf (runDir openO dir stream), (runDir openO dir stream).atts)

/-- Recognizes an error item on the handoff channel. -/
def isErrItem : Except Int Nat → Bool
  | .error _ => true
  | _ => false

/-- What one `Monitor::read` call returns (monitor.rs lines 85-90): the
`n`-th published item when there is one, else, since the task has ended and
the sender is dropped, the `BrokenPipe` error `Monitor task exited`. -/
inductive ReadOut where
  | handle (h : Nat)
  | ioFail (e : Int)
  | brokenPipe
  deriving DecidableEq

/-- `Monitor::read`, as the outcome of the `n`-th consumer read against the
published item list. -/
def Monitor.read (published : List (Except Int Nat)) (n : Nat) : ReadOut :=
  match published.get? n with
  | some (.ok h) => .handle h
  | some (.error e) => .ioFail e
  | none => .brokenPipe

/-! ### Cancellation on consumer drop

`sender.send(...)` fails once the receiver is dropped, upon which the task
returns `Ok(())` (monitor.rs lines 63-65); the `select!` on `sender.closed()`
(line 78) can only end the task earlier.  The Watching loop is re-run with a
consumer budget: the number of items the consumer will still accept before
dropping.  A send against an exhausted budget is the failed send. -/

/-- The Watching phase against a consumer that accepts `k` more items and
then drops its receiver. -/
def runStreamC (openO : DevPath → OpenOutcome) (k : Nat) :
    List (Except Int (Option String)) → RunOut
  | [] => ⟨[], [], .ok ()⟩
  | .error e :: _ => ⟨[], [], .error e⟩
  | .ok none :: rest => runStreamC openO k rest
  | .ok (some name) :: rest =>
    let path : DevPath := ⟨some name⟩
    if startsWithEventName path then
      match openO path with
      | .adopted h =>
        match k with
        | 0 => ⟨[], [path], .ok ()⟩
        | k' + 1 =>
          let r := runStreamC openO k' rest
          ⟨h :: r.pubs, path :: r.atts, r.res⟩
      | .notAppliable =>
        let r := runStreamC openO k rest
        ⟨r.pubs, path :: r.atts, r.res⟩
      | .ioFail e => ⟨[], [path], .error e⟩
    else runStreamC openO k rest

/-! ### The handoff channel

`mpsc::channel(1)` (monitor.rs line 19): a bounded queue whose `send`
suspends while the buffer is full and whose `recv` pops the front.  Its
transition system is given below; the Monitor instantiates it with
capacity 1. -/

/-- The capacity the Monitor passes to `mpsc::channel` (monitor.rs line 19). -/
def monitorChannelCapacity : Nat := 1

/-- State of a bounded channel: the buffered items and the capacity. -/
structure ChanState where
  buf : List Nat
  cap : Nat
  deriving DecidableEq

/-- One channel transition: a send completes only while the buffer is below
capacity; a receive pops the front item. -/
inductive ChanStep : ChanState → ChanState → Prop
  | send (s : ChanState) (i : Nat) (h : s.buf.length < s.cap) :
      ChanStep s ⟨s.buf ++ [i], s.cap⟩
  | recv (i : Nat) (buf : List Nat) (cap : Nat) :
      ChanStep ⟨i :: buf, cap⟩ ⟨buf, cap⟩

/-- Reachability in the channel transition system. -/
inductive ChanReach : ChanState → ChanState → Prop
  | refl (s : ChanState) : ChanReach s s
  | step (s t u : ChanState) : ChanReach s t → ChanStep t u → ChanReach s u

/-! ## Theorems -/

/-- Claim C3: in the raw-write retry loop, a would-block outcome re-enters
the loop without surfacing an error, any other failure is returned
immediately, and a would-block-then-succeed sequence of attempt outcomes
yields exactly one successful underlying write and a successful return. -/
theorem write_raw_retry :
    (∀ n : Nat,
      write_raw (List.replicate n .wouldBlock ++ [.ioResult (.ok ())]) =
        (some (.ok ()), 1)) ∧
    (∀ rest, write_raw (.wouldBlock :: rest) = write_raw rest) ∧
    (∀ e rest, write_raw (.ioResult (.error e) :: rest) = (some (.error e), 0)) ∧
    (∀ e rest, write_raw (.writableErr e :: rest) = (some (.error e), 0)) := by
  refine ⟨?_, fun rest => rfl, fun e rest => rfl, fun e rest => rfl⟩
  intro n
  induction n with
  | zero => rfl
  | succ n ih => simpa [List.replicate_succ, write_raw] using ih

/-- Claim C4: whenever the encoded code or value of a normalized event is
unmapped, `Writer::write` returns success and never invokes the underlying
raw write. -/
theorem write_unmapped_dropped (raw : Nat → Nat → Int → Except Int Unit)
    (event : Event)
    (h : (encode event).2.1 = none ∨ (encode event).2.2 = none) :
    Writer.write raw event = (Except.ok (), []) := by
  unfold Writer.write
  rcases hc : (encode event).2.1 with _ | code <;>
    rcases hv : (encode event).2.2 with _ | v <;>
      simp_all

/-- Witness for C4: a key-down event whose key has no raw code is silently
dropped, with no underlying write, even against an always-failing raw
write. -/
theorem write_unmapped_dropped_witness :
    Writer.write (fun _ _ _ => Except.error 1) (Event.key true ⟨none⟩) =
      (Except.ok (), []) :=
  write_unmapped_dropped (fun _ _ _ => Except.error 1) (Event.key true ⟨none⟩)
    (by decide)

/-- Claim C8: `Writer::write` encodes by the fixed mapping table — relative
axis to `(EV_REL, code, value)`, absolute axis to `(EV_ABS, code, value)`
with the tool-type pseudo-axis at the reserved `ABS_MT_TOOL_TYPE` code, key
to `(EV_KEY, code, 1/0)` for down/up, sync to `(EV_SYN, code, 0)` — and
passes at most one raw triple per event to the underlying write. -/
theorem write_encoding_table :
    (∀ axis value, encode (.rel axis value) = (EV_REL, axis.toRaw, some value)) ∧
    (∀ axis value,
      encode (.abs (.axis axis value)) = (EV_ABS, axis.toRaw, some value)) ∧
    (∀ value,
      encode (.abs (.mtToolType value)) =
        (EV_ABS, some ABS_MT_TOOL_TYPE, value.toRaw)) ∧
    (∀ key, encode (.key true key) = (EV_KEY, key.toRaw, some 1)) ∧
    (∀ key, encode (.key false key) = (EV_KEY, key.toRaw, some 0)) ∧
    (∀ event, encode (.sync event) = (EV_SYN, event.toRaw, some 0)) ∧
    (∀ raw event, (Writer.write raw event).2.length ≤ 1) := by
  refine ⟨fun _ _ => rfl, fun _ _ => rfl, fun _ => rfl, fun _ => rfl,
    fun _ => rfl, fun _ => rfl, ?_⟩
  intro raw event
  unfold Writer.write
  rcases hc : (encode event).2.1 with _ | code <;>
    rcases hv : (encode event).2.2 with _ | v <;>
      simp_all

/-- The axis loop of `abs` never issues a multi-touch-report sync
registration itself. -/
theorem absEnable_count_mt (kernelRet : EnableCall → Int)
    (items : List (AbsAxis × AbsInfo)) :
    (absEnable kernelRet items).2.countP isMtReportSync = 0 := by
  induction items with
  | nil => rfl
  | cons hd tl ih =>
    obtain ⟨axis, info⟩ := hd
    cases hr : axis.toRaw with
    | none => simpa [absEnable, hr] using ih
    | some code =>
      by_cases hret : kernelRet (.absAxis code (mkAbsinfo info)) < 0 <;>
        simp [absEnable, hr, hret, isMtReportSync, ih]

/-- Claim C1: every call to `WriterBuilder::abs` issues the
multi-touch-report sync registration on the kernel descriptor exactly once,
regardless of how many absolute axes the collection contains. -/
theorem abs_mt_report_once (kernelRet : EnableCall → Int)
    (items : List (AbsAxis × AbsInfo)) :
    (WriterBuilder.abs kernelRet items).2.countP isMtReportSync = 1 := by
  by_cases h : kernelRet .mtReportSync < 0 <;>
    simp [WriterBuilder.abs, h, isMtReportSync, absEnable_count_mt]

/-- Every `EV_ABS` enable call issued by the axis loop comes from an item of
the collection, through `mkAbsinfo`. -/
theorem absEnable_mem (kernelRet : EnableCall → Int)
    (items : List (AbsAxis × AbsInfo)) (code : Nat) (i : input_absinfo)
    (h : EnableCall.absAxis code i ∈ (absEnable kernelRet items).2) :
    ∃ axis info, (axis, info) ∈ items ∧ axis.toRaw = some code ∧
      i = mkAbsinfo info := by
  induction items with
  | nil => simp [absEnable] at h
  | cons hd tl ih =>
    obtain ⟨axis, info⟩ := hd
    cases hr : axis.toRaw with
    | none =>
      rw [absEnable, hr] at h
      obtain ⟨a, inf, hmem, hcode, hi⟩ := ih h
      exact ⟨a, inf, List.mem_cons_of_mem _ hmem, hcode, hi⟩
    | some c =>
      rw [absEnable, hr] at h
      by_cases hret : kernelRet (.absAxis c (mkAbsinfo info)) < 0
      · simp only [hret, if_pos, List.mem_singleton] at h
        obtain ⟨hc, hi⟩ := EnableCall.absAxis.inj h
        exact ⟨axis, info, List.mem_cons_self _ _, hc ▸ hr, hi⟩
      · simp only [hret, if_neg, not_false_iff, List.mem_cons] at h
        rcases h with h | h
        · obtain ⟨hc, hi⟩ := EnableCall.absAxis.inj h
          exact ⟨axis, info, List.mem_cons_self _ _, hc ▸ hr, hi⟩
        · obtain ⟨a, inf, hmem, hcode, hi⟩ := ih h
          exact ⟨a, inf, List.mem_cons_of_mem _ hmem, hcode, hi⟩

/-- Claim C10: every kernel axis descriptor passed to an absolute-axis
registration by `WriterBuilder::abs` carries the supplied minimum as its
initial value, alongside the supplied minimum, maximum, fuzz, flat and
resolution fields. -/
theorem abs_descriptor_fields (kernelRet : EnableCall → Int)
    (items : List (AbsAxis × AbsInfo)) (code : Nat) (i : input_absinfo)
    (h : EnableCall.absAxis code i ∈ (WriterBuilder.abs kernelRet items).2) :
    ∃ axis info, (axis, info) ∈ items ∧ axis.toRaw = some code ∧
      i.value = info.min ∧ i.minimum = info.min ∧ i.maximum = info.max ∧
      i.fuzz = info.fuzz ∧ i.flat = info.flat ∧
      i.resolution = info.resolution := by
  rw [WriterBuilder.abs] at h
  by_cases hs : kernelRet .mtReportSync < 0
  · simp only [hs, if_pos, List.mem_singleton] at h
    exact absurd h (by simp)
  · simp only [hs, if_neg, not_false_iff, List.mem_cons] at h
    rcases h with h | h
    · exact absurd h (by simp)
    · obtain ⟨axis, info, hmem, hcode, hi⟩ := absEnable_mem kernelRet items code i h
      subst hi
      exact ⟨axis, info, hmem, hcode, rfl, rfl, rfl, rfl, rfl, rfl⟩

/-- Witness for C10: a single registered axis with range data
`(0, 100, 1, 2, 3)` yields a descriptor whose value field equals the
minimum 0. -/
theorem abs_descriptor_fields_witness :
    ∃ axis info,
      (axis, info) ∈ [((⟨some 7⟩ : AbsAxis), (⟨0, 100, 1, 2, 3⟩ : AbsInfo))] ∧
      axis.toRaw = some 7 ∧
      (⟨0, 0, 100, 1, 2, 3⟩ : input_absinfo).value = info.min ∧
      (⟨0, 0, 100, 1, 2, 3⟩ : input_absinfo).minimum = info.min ∧
      (⟨0, 0, 100, 1, 2, 3⟩ : input_absinfo).maximum = info.max ∧
      (⟨0, 0, 100, 1, 2, 3⟩ : input_absinfo).fuzz = info.fuzz ∧
      (⟨0, 0, 100, 1, 2, 3⟩ : input_absinfo).flat = info.flat ∧
      (⟨0, 0, 100, 1, 2, 3⟩ : input_absinfo).resolution = info.resolution :=
  abs_descriptor_fields (fun _ => 0) [(⟨some 7⟩, ⟨0, 100, 1, 2, 3⟩)] 7
    ⟨0, 0, 100, 1, 2, 3⟩ (by decide)

/-- Claim C2: when the Monitor's run ends in an I/O error, that error is
published exactly once, as the last channel item; every consumer read past
the published items yields the broken-pipe `Monitor task exited` error; and
an error outcome, whether from the directory scan or the notification
stream, stops the loop with no further candidates processed. -/
theorem monitor_fatal_error_once (openO : DevPath → OpenOutcome)
    (dir : List (Except Int DevPath))
    (stream : List (Except Int (Option String))) (e : Int)
    (h : (runDir openO dir stream).res = .error e) :
    (monitorTask openO dir stream).1.countP isErrItem = 1 ∧
    (monitorTask openO dir stream).1.getLast? = some (.error e) ∧
    (∀ n, (monitorTask openO dir stream).1.length ≤ n →
      Monitor.read (monitorTask openO dir stream).1 n = .brokenPipe) ∧
    (∀ e' rest stream',
      runDir openO (.error e' :: rest) stream' = ⟨[], [], .error e'⟩) ∧
    (∀ e' rest, runStream openO (.error e' :: rest) = ⟨[], [], .error e'⟩) := by
  have hpub : (monitorTask openO dir stream).1 =
      (runDir openO dir stream).pubs.map .ok ++ [.error e] := by
    simp [monitorTask, publishOf, h]
  refine ⟨?_, ?_, ?_, fun e' rest stream' => rfl, fun e' rest => rfl⟩
  · rw [hpub, List.countP_append, List.countP_map]
    simp [isErrItem, Function.comp]
  · rw [hpub]
    exact List.getLast?_concat _
  · intro n hn
    rw [Monitor.read, List.get?_eq_none.mpr hn]

/-- Witness for C2: a directory-scan failure with code 5 is published
exactly once. -/
theorem monitor_fatal_error_once_witness :
    (monitorTask (fun _ => .notAppliable) [Except.error 5] []).1.countP
      isErrItem = 1 :=
  (monitor_fatal_error_once (fun _ => .notAppliable) [Except.error 5] [] 5
    (by decide)).1

/-- Every candidate the Watching phase passes to `Interceptor::open`
satisfies the `"event"` name filter. -/
theorem runStream_atts_pass (openO : DevPath → OpenOutcome)
    (stream : List (Except Int (Option String))) (p : DevPath)
    (h : p ∈ (runStream openO stream).atts) : startsWithEventName p = true := by
  induction stream with
  | nil => simp [runStream] at h
  | cons hd tl ih =>
    match hd with
    | .error e => simp [runStream] at h
    | .ok none => rw [runStream] at h; exact ih h
    | .ok (some name) =>
      rw [runStream] at h
      by_cases hf : startsWithEventName ⟨some name⟩
      · simp only [hf, if_pos] at h
        cases ho : openO ⟨some name⟩ <;> rw [ho] at h
        · rcases List.mem_cons.mp h with h | h
          · exact h ▸ hf
          · exact ih h
        · rcases List.mem_cons.mp h with h | h
          · exact h ▸ hf
          · exact ih h
        · rcases List.mem_singleton.mp h with h
          exact h ▸ hf
      · simp only [hf, if_neg, Bool.false_eq_true, not_false_iff] at h
        exact ih h

/-- Every candidate the full Monitor loop passes to `Interceptor::open`
satisfies the `"event"` name filter. -/
theorem runDir_atts_pass (openO : DevPath → OpenOutcome)
    (dir : List (Except Int DevPath))
    (stream : List (Except Int (Option String))) (p : DevPath)
    (h : p ∈ (runDir openO dir stream).atts) :
    startsWithEventName p = true := by
  induction dir with
  | nil => exact runStream_atts_pass openO stream p h
  | cons hd tl ih =>
    match hd with
    | .error e => simp [runDir] at h
    | .ok q =>
      rw [runDir] at h
      by_cases hf : startsWithEventName q
      · simp only [hf, if_pos] at h
        cases ho : openO q <;> rw [ho] at h
        · rcases List.mem_cons.mp h with h | h
          · exact h ▸ hf
          · exact ih h
        · rcases List.mem_cons.mp h with h | h
          · exact h ▸ hf
          · exact ih h
        · rcases List.mem_singleton.mp h with h
          exact h ▸ hf
      · simp only [hf, if_neg, Bool.false_eq_true, not_false_iff] at h
        exact ih h

/-- On an error-free notification stream with no fatal open outcomes, the
open attempts are exactly the name-filtered candidates, in order. -/
theorem runStream_atts_clean (openO : DevPath → OpenOutcome)
    (ns : List String) (hopen : ∀ p e, openO p ≠ .ioFail e) :
    (runStream openO (ns.map fun n => .ok (some n))).atts =
      (ns.map fun n => DevPath.mk (some n)).filter startsWithEventName := by
  induction ns with
  | nil => rfl
  | cons n tl ih =>
    simp only [List.map_cons, List.filter_cons]
    rw [runStream]
    by_cases hf : startsWithEventName ⟨some n⟩
    · cases ho : openO ⟨some n⟩ with
      | adopted handle => simp [hf, ho, ih]
      | notAppliable => simp [hf, ho, ih]
      | ioFail e => exact absurd ho (hopen _ _)
    · simp [hf, ih]

/-- Claim C5: the Monitor attempts adoption exactly on the candidates whose
final path component starts with `"event"`: on clean inputs the attempt
list is the filtered candidate list, and on all inputs every attempted
candidate passes the filter. -/
theorem monitor_adoption_filter (openO : DevPath → OpenOutcome)
    (ds : List DevPath) (ns : List String)
    (hopen : ∀ p e, openO p ≠ .ioFail e) :
    (runDir openO (ds.map .ok) (ns.map fun n => .ok (some n))).atts =
      (ds ++ ns.map fun n => DevPath.mk (some n)).filter startsWithEventName ∧
    (∀ dir stream p, p ∈ (runDir openO dir stream).atts →
      startsWithEventName p = true) := by
  constructor
  · induction ds with
    | nil =>
      simpa using runStream_atts_clean openO ns hopen
    | cons d tl ih =>
      simp only [List.map_cons, List.cons_append, List.filter_cons]
      rw [runDir]
      by_cases hf : startsWithEventName d
      · cases ho : openO d with
        | adopted handle => simp [hf, ho, ih]
        | notAppliable => simp [hf, ho, ih]
        | ioFail e => exact absurd ho (hopen _ _)
      · simp [hf, ih]
  · exact fun dir stream p => runDir_atts_pass openO dir stream p

/-- Witness for C5: from a directory holding `event3` and `mouse0` and a
notification for `event7`, the adoption attempts are exactly `event3` then
`event7`. -/
theorem monitor_adoption_filter_witness :
    (runDir (fun _ => .notAppliable)
        ([⟨some "event3"⟩, ⟨some "mouse0"⟩].map .ok)
        (["event7"].map fun n => .ok (some n))).atts =
      ([(⟨some "event3"⟩ : DevPath), ⟨some "mouse0"⟩] ++
        ["event7"].map fun n => DevPath.mk (some n)).filter
        startsWithEventName :=
  (monitor_adoption_filter (fun _ => .notAppliable)
    [⟨some "event3"⟩, ⟨some "mouse0"⟩] ["event7"]
    (fun _ _ h => OpenOutcome.noConfusion h)).1

/-- Claim C9: in the Watching phase a notification without a file name is
skipped and the loop continues unchanged, and the notification stream
ending terminates the loop cleanly, after which no error item is
published. -/
theorem monitor_watch_skip_and_clean_end (openO : DevPath → OpenOutcome) :
    (∀ rest, runStream openO (Except.ok none :: rest) = runStream openO rest) ∧
    runStream openO [] = ⟨[], [], Except.ok ()⟩ ∧
    (∀ pubs atts,
      (publishOf ⟨pubs, atts, Except.ok ()⟩).countP isErrItem = 0) := by
  refine ⟨fun rest => rfl, rfl, ?_⟩
  intro pubs atts
  rw [publishOf, List.countP_map]
  simp [isErrItem, Function.comp]

/-- Against a consumer accepting at most `k` more items, the Watching loop
publishes at most `k` adoptions. -/
theorem runStreamC_pubs_le (openO : DevPath → OpenOutcome) (k : Nat)
    (stream : List (Except Int (Option String))) :
    (runStreamC openO k stream).pubs.length ≤ k := by
  induction stream generalizing k with
  | nil => simp [runStreamC]
  | cons hd tl ih =>
    match hd with
    | .error e => simp [runStreamC]
    | .ok none => rw [runStreamC]; exact ih k
    | .ok (some name) =>
      rw [runStreamC]
      by_cases hf : startsWithEventName ⟨some name⟩
      · cases ho : openO ⟨some name⟩ with
        | adopted handle =>
          cases k with
          | zero => simp [hf, ho]
          | succ k' =>
            simp only [hf, if_pos, ho, List.length_cons]
            exact Nat.succ_le_succ (ih k')
        | notAppliable => simp only [hf, if_pos, ho]; exact ih k
        | ioFail e => simp [hf, ho]
      · simp only [hf, if_neg, Bool.false_eq_true, not_false_iff]
        exact ih k

/-- Claim C7: once the consumer is dropped (budget 0), the task's next
publish attempt makes it return cleanly at once — the remaining stream is
never consumed and no further adoption is attempted — and in general the
loop never publishes more adoptions than the consumer accepts. -/
theorem monitor_consumer_drop_stops (openO : DevPath → OpenOutcome)
    (name : String) (handle : Nat) (rest : List (Except Int (Option String)))
    (h1 : startsWithEventName ⟨some name⟩ = true)
    (h2 : openO ⟨some name⟩ = .adopted handle) :
    runStreamC openO 0 (Except.ok (some name) :: rest) =
      ⟨[], [⟨some name⟩], Except.ok ()⟩ ∧
    (∀ g k s, (runStreamC g k s).pubs.length ≤ k) := by
  constructor
  · rw [runStreamC]
    simp [h1, h2]
  · exact fun g k s => runStreamC_pubs_le g k s

/-- Witness for C7: with the consumer gone, an adoptable `event0`
notification ends the task immediately; a later `event1` is never
examined. -/
theorem monitor_consumer_drop_stops_witness :
    runStreamC (fun _ => .adopted 1) 0
        [Except.ok (some "event0"), Except.ok (some "event1")] =
      ⟨[], [⟨some "event0"⟩], Except.ok ()⟩ :=
  (monitor_consumer_drop_stops (fun _ => .adopted 1) "event0" 1
    [Except.ok (some "event1")] (by decide) rfl).1

/-- Claim C6: every state of the capacity-1 handoff channel reachable from
the empty channel the Monitor creates keeps its capacity, buffers at most
one item, and, when one item is pending, admits no further send until a
receive drains it. -/
theorem handoff_at_most_one (s : ChanState)
    (h : ChanReach ⟨[], monitorChannelCapacity⟩ s) :
    s.cap = monitorChannelCapacity ∧ s.buf.length ≤ 1 ∧
      (s.buf.length = 1 → ¬s.buf.length < s.cap) := by
  induction h with
  | refl => simp [monitorChannelCapacity]
  | step t u hreach hstep ih =>
    obtain ⟨hcap, hlen, hfull⟩ := ih
    cases hstep with
    | send i hw =>
      have hc1 : t.cap = 1 := hcap
      have hw0 : t.buf.length = 0 := by omega
      refine ⟨hcap, ?_, ?_⟩
      · simp [List.length_append, hw0]
      · intro h1
        simp only [List.length_append, List.length_singleton, hw0,
          Nat.zero_add, hc1]
        omega
    | recv i buf cap =>
      have hc1 : cap = 1 := hcap
      simp only [List.length_cons] at hlen
      refine ⟨hcap, ?_, ?_⟩
      · show buf.length ≤ 1
        omega
      · show buf.length = 1 → ¬buf.length < cap
        intro h1
        omega

/-- Witness for C6: the state reached by one send on the Monitor's channel
holds one item, within capacity, and admits no second send. -/
theorem handoff_at_most_one_witness :
    (⟨[7], 1⟩ : ChanState).cap = monitorChannelCapacity ∧
    (⟨[7], 1⟩ : ChanState).buf.length ≤ 1 ∧
    ((⟨[7], 1⟩ : ChanState).buf.length = 1 →
      ¬(⟨[7], 1⟩ : ChanState).buf.length < (⟨[7], 1⟩ : ChanState).cap) :=
  handoff_at_most_one ⟨[7], 1⟩
    (ChanReach.step _ _ _ (ChanReach.refl _)
      (ChanStep.send ⟨[], 1⟩ 7 (by decide)))

end Rkvm
